import Mathlib

/-!
Verification of the experiment-result aggregation pipeline
(`analysis/aggregate_macro_results.py`, `analysis/aggregate_micro_results.py`,
`analysis/plot_all_summaries_plt.py`, `analysis/plot_all_summaries_sns.py`).

Modelling conventions:
* Floating-point values appearing in artifacts are modelled as either a finite
  rational (`MF.fin q`) or a non-finite value (`MF.nonfinite`, covering NaN and
  ±infinity); an absent JSON field is `MF.absent` (the code maps it to NaN via
  `r.get('mse', np.nan)` in the graph-level aggregator, and to `None` in the
  pair-level aggregator).
* Statistics computed by the graph-level aggregator live in `ℝ` (square roots
  are irrational in general); `Option ℝ` with `none` models a NaN result.
* A parsed JSON document is `Doc.parsed metadata results`; `Doc.malformed`
  models a file on which `json.load` (or top-level field access) raises.
* Printing of warnings is not modelled; "skip with a warning" is modelled as
  contributing no row while processing continues, and an uncaught Python
  exception is modelled as `Except.error`.
-/

/-- A JSON numeric field value: absent, non-finite (NaN/±inf), or a finite
rational (every IEEE-754 float is a rational). -/
inductive MF where
  | absent
  | nonfinite
  | fin (q : ℚ)
  deriving DecidableEq, Repr

/-- One element of the `results` list of an artifact: an `mse` value and an
optional `test_samples` count (`none` models an absent or null field). -/
structure Measurement where
  mse : MF
  test_samples : Option ℤ
  deriving DecidableEq, Repr

/-- The `results` field of an artifact: either a JSON array of measurements or
some other JSON value, remembered only through its Python truthiness (an empty
dict/string is falsy, a non-empty one truthy). -/
inductive ResultsField where
  | rlist (ms : List Measurement)
  | rother (truthy : Bool)
  deriving DecidableEq, Repr

/-- The `metadata` object of an artifact: the nine parameter keys read by both
aggregators (`none` = key absent), plus a flag recording whether the dict holds
any further keys (needed to decide Python's `not metadata`). -/
structure Metadata where
  condition : Option String
  alpha : Option ℚ
  seed : Option ℤ
  top_k : Option ℚ
  bottom_k : Option ℚ
  max_samples : Option ℚ
  epochs : Option ℚ
  batch_size : Option ℚ
  lr : Option ℚ
  hasExtra : Bool
  deriving DecidableEq, Repr

/-- Python's `not metadata`: the metadata dict is empty iff all nine keys are
absent and no extra key is present. -/
def Metadata.isEmptyDict (m : Metadata) : Bool :=
  m.condition.isNone && m.alpha.isNone && m.seed.isNone && m.top_k.isNone &&
  m.bottom_k.isNone && m.max_samples.isNone && m.epochs.isNone &&
  m.batch_size.isNone && m.lr.isNone && !m.hasExtra

/-- One discovered artifact file: `malformed` models a document on which
`json.load` raises (or whose top level is not an object), `parsed` a document
that yields a metadata dict and a `results` field. -/
inductive Doc where
  | malformed
  | parsed (metadata : Metadata) (results : ResultsField)
  deriving DecidableEq, Repr

/-- Errors modelling uncaught Python exceptions in the aggregators. -/
inductive AggError where
  /-- `json.load` (or top-level access) raised on a malformed document. -/
  | parseError
  /-- Iterating a truthy non-list `results` value raised (AttributeError or
  TypeError inside the measurement loop of the pair-level aggregator). -/
  | runtimeError
  /-- `drop_duplicates(subset=param_keys)` raised KeyError on the empty,
  column-less DataFrame built from zero rows. -/
  | emptyDedupError
  deriving DecidableEq, Repr

deriving instance DecidableEq for Except

/-! ## Pair-level (micro) aggregator: `aggregate_micro_results.py` -/

/-- One summary row of the pair-level aggregator: the nine metadata parameters
plus `overall_mse` (`none` = NaN). -/
structure PRow where
  condition : Option String
  alpha : Option ℚ
  seed : Option ℤ
  top_k : Option ℚ
  bottom_k : Option ℚ
  max_samples : Option ℚ
  epochs : Option ℚ
  batch_size : Option ℚ
  lr : Option ℚ
  overall_mse : Option ℚ
  deriving DecidableEq, Repr

/-- One step of the accumulation loop of the pair-level aggregator: add
`mse * test_samples` and `test_samples` for measurements where `mse` is not
None and `test_samples` is not None and positive.  The first accumulator
component is `none` once a non-finite `mse` entered the sum (NaN poisons the
float sum). -/
def microAccumStep (acc : Option ℚ × ℤ) (m : Measurement) : Option ℚ × ℤ :=
  match m.mse, m.test_samples with
  | MF.fin q, some s => if 0 < s then (acc.1.map (· + q * (s : ℚ)), acc.2 + s) else acc
  | MF.nonfinite, some s => if 0 < s then (none, acc.2 + s) else acc
  | _, _ => acc

/-- The accumulated `(total_mse_product, total_test_samples)` of the pair-level
aggregator, starting from `(0, 0)`. -/
def microAccum (ms : List Measurement) : Option ℚ × ℤ :=
  ms.foldl microAccumStep (some 0, 0)

/-- `overall_mse` of one artifact: the ratio of the accumulated product and
weight when the weight is positive, NaN (`none`) otherwise. -/
def computeOverallMse (ms : List Measurement) : Option ℚ :=
  let acc := microAccum ms
  if 0 < acc.2 then acc.1.map (· / (acc.2 : ℚ)) else none

/-- Build the pair-level row for one artifact: copy the nine metadata keys,
attach `overall_mse`, and normalize `alpha` to NaN for the `random`/`all`
conditions. -/
def microRowOf (meta : Metadata) (ms : List Measurement) : PRow :=
  { condition := meta.condition
    alpha := if meta.condition = some "random" ∨ meta.condition = some "all" then
               none else meta.alpha
    seed := meta.seed
    top_k := meta.top_k
    bottom_k := meta.bottom_k
    max_samples := meta.max_samples
    epochs := meta.epochs
    batch_size := meta.batch_size
    lr := meta.lr
    overall_mse := computeOverallMse ms }

/-- Processing of one artifact by the pair-level aggregator: a malformed
document raises; an artifact with empty metadata, or whose `results` value is
falsy (empty list, or an empty non-list value), is skipped; a truthy non-list
`results` value raises inside the measurement loop; otherwise one row is
emitted. -/
def microStep (d : Doc) : Except AggError (Option PRow) :=
  match d with
  | Doc.malformed => Except.error AggError.parseError
  | Doc.parsed meta res =>
    if meta.isEmptyDict then Except.ok none
    else
      match res with
      | ResultsField.rlist [] => Except.ok none
      | ResultsField.rlist (m :: ms) => Except.ok (some (microRowOf meta (m :: ms)))
      | ResultsField.rother false => Except.ok none
      | ResultsField.rother true => Except.error AggError.runtimeError

/-- Run a per-artifact step over every discovered file, collecting the emitted
rows in file order; an uncaught exception aborts the whole run. -/
def collectRows {ρ : Type} (step : Doc → Except AggError (Option ρ)) :
    List Doc → Except AggError (List ρ)
  | [] => Except.ok []
  | d :: ds =>
    match step d with
    | Except.error e => Except.error e
    | Except.ok none => collectRows step ds
    | Except.ok (some r) =>
      match collectRows step ds with
      | Except.error e => Except.error e
      | Except.ok rs => Except.ok (r :: rs)

/-- All rows emitted by the pair-level aggregator, in processing order. -/
def microCollect (docs : List Doc) : Except AggError (List PRow) :=
  collectRows microStep docs

/-- `df.drop_duplicates(subset=key, keep='last')`: keep a row iff no later row
shares its key; kept rows stay in their original relative order. -/
def dedupLast {κ ρ : Type} [DecidableEq κ] (key : ρ → κ) : List ρ → List ρ
  | [] => []
  | r :: rs =>
    if rs.any (fun x => decide (key x = key r)) then dedupLast key rs
    else r :: dedupLast key rs

/-- The nine-parameter `MetadataKey` used as `subset=param_keys` by
`drop_duplicates` in both aggregators. -/
structure ParamKey where
  condition : Option String
  alpha : Option ℚ
  seed : Option ℤ
  top_k : Option ℚ
  bottom_k : Option ℚ
  max_samples : Option ℚ
  epochs : Option ℚ
  batch_size : Option ℚ
  lr : Option ℚ
  deriving DecidableEq, Repr

/-- The nine-parameter deduplication key of a pair-level row (the
`overall_mse` column is not part of `subset=param_keys`). -/
def PRow.key (r : PRow) : ParamKey :=
  ⟨r.condition, r.alpha, r.seed, r.top_k, r.bottom_k, r.max_samples,
   r.epochs, r.batch_size, r.lr⟩

/-- Outcome of one aggregator run, distinguishing "no files discovered"
(early return, no CSV written), "files discovered but no data aggregated"
(reported, no CSV written), and a written summary table. -/
inductive MicroResult where
  | noFiles
  | noData
  | written (table : List PRow)
  deriving DecidableEq, Repr

/-- The pair-level aggregator end to end: empty discovery returns early
without writing; if no artifact yielded a row, the condition is reported and
no file is written; otherwise the rows are deduplicated on the nine-parameter
key (keeping the last occurrence) and written in processing order — this
aggregator performs no sorting and no index reset. -/
def microAggregate (docs : List Doc) : Except AggError MicroResult :=
  if docs.isEmpty then Except.ok MicroResult.noFiles
  else
    match microCollect docs with
    | Except.error e => Except.error e
    | Except.ok rows =>
      if rows.isEmpty then Except.ok MicroResult.noData
      else Except.ok (MicroResult.written (dedupLast PRow.key rows))

/-- The `__main__` batch of the pair-level aggregator: run the aggregator for
each configured model in order; an uncaught exception aborts the remaining
models. -/
def microBatch : List (List Doc) → Except AggError (List MicroResult)
  | [] => Except.ok []
  | ds :: rest =>
    match microAggregate ds with
    | Except.error e => Except.error e
    | Except.ok r =>
      match microBatch rest with
      | Except.error e => Except.error e
      | Except.ok rs => Except.ok (r :: rs)

/-! ## Graph-level (macro) aggregator: `aggregate_macro_results.py` -/

/-- The retained finite mse values of an artifact, in measurement order:
`_finite([r.get('mse', np.nan) for r in results])` keeps exactly the finite
numeric entries (an absent field maps to NaN and is dropped, as is any
non-finite value). -/
def finiteMseVals (ms : List Measurement) : List ℚ :=
  ms.filterMap fun m =>
    match m.mse with
    | MF.fin q => some q
    | _ => none

/-- The retained mse population as real numbers. -/
noncomputable def mseListR (ms : List Measurement) : List ℝ :=
  (finiteMseVals ms).map (Rat.cast : ℚ → ℝ)

/-- The rmse population: `[np.sqrt(x) for x in mse_list if np.isfinite(x) and
x >= 0.0]` — square roots of the retained mse values that are non-negative
(all retained values are finite already, and `_finite` applied afterwards is
the identity on these finite square roots). -/
noncomputable def rmseListR (ms : List Measurement) : List ℝ :=
  ((finiteMseVals ms).filter fun q => 0 ≤ q).map (fun q => Real.sqrt (q : ℝ))

/-- `_mean_std_sample(arr)`: `(nan, nan)` on an empty array, otherwise the
arithmetic mean paired with `np.std(arr, ddof=1)` (that is,
`sqrt(Σ(x-mean)²/(n-1))`) when the array has at least two elements and NaN
otherwise. -/
noncomputable def meanStdSample (l : List ℝ) : Option ℝ × Option ℝ :=
  if l.length = 0 then (none, none)
  else
    (some (l.sum / (l.length : ℝ)),
     if 2 ≤ l.length then
       some (Real.sqrt
         ((l.map fun x => (x - l.sum / (l.length : ℝ)) ^ 2).sum /
           ((l.length : ℝ) - 1)))
     else none)

/-- One summary row of the graph-level aggregator: the nine metadata
parameters, the four statistics (`none` = NaN) and `n_targets_used`. -/
structure GRow where
  condition : Option String
  alpha : Option ℚ
  seed : Option ℤ
  top_k : Option ℚ
  bottom_k : Option ℚ
  max_samples : Option ℚ
  epochs : Option ℚ
  batch_size : Option ℚ
  lr : Option ℚ
  mse_mean : Option ℝ
  mse_std : Option ℝ
  rmse_mean : Option ℝ
  rmse_std : Option ℝ
  n_targets_used : ℕ

/-- Build the graph-level row for one artifact: copy the nine metadata keys,
attach the statistics of the mse and rmse populations and the retained count,
and normalize `alpha` to NaN for the `random`/`all` conditions. -/
noncomputable def macroRowOf (meta : Metadata) (ms : List Measurement) : GRow :=
  { condition := meta.condition
    alpha := if meta.condition = some "random" ∨ meta.condition = some "all" then
               none else meta.alpha
    seed := meta.seed
    top_k := meta.top_k
    bottom_k := meta.bottom_k
    max_samples := meta.max_samples
    epochs := meta.epochs
    batch_size := meta.batch_size
    lr := meta.lr
    mse_mean := (meanStdSample (mseListR ms)).1
    mse_std := (meanStdSample (mseListR ms)).2
    rmse_mean := (meanStdSample (rmseListR ms)).1
    rmse_std := (meanStdSample (rmseListR ms)).2
    n_targets_used := (finiteMseVals ms).length }

/-- Processing of one artifact by the graph-level aggregator: a malformed
document raises; an artifact with empty metadata or whose `results` value is
not a list is skipped with a warning; otherwise one row is emitted (also for
an empty measurement list, whose statistics are all NaN). -/
noncomputable def macroStep (d : Doc) : Except AggError (Option GRow) :=
  match d with
  | Doc.malformed => Except.error AggError.parseError
  | Doc.parsed meta res =>
    if meta.isEmptyDict then Except.ok none
    else
      match res with
      | ResultsField.rlist ms => Except.ok (some (macroRowOf meta ms))
      | ResultsField.rother _ => Except.ok none

/-- All rows emitted by the graph-level aggregator, in processing order. -/
noncomputable def macroCollect (docs : List Doc) : Except AggError (List GRow) :=
  collectRows macroStep docs

/-- The nine-parameter deduplication key of a graph-level row. -/
def GRow.key (r : GRow) : ParamKey :=
  ⟨r.condition, r.alpha, r.seed, r.top_k, r.bottom_k, r.max_samples,
   r.epochs, r.batch_size, r.lr⟩

/-! Sorting model for `df.sort_values(by=['condition','alpha','seed'])`:
pandas sorts ascending with missing values (NaN/None) placed last in each key
column, using a stable lexicographic sort.  A stable insertion sort by the
same total preorder produces the identical row order. -/

/-- Three-way comparison of rationals. -/
def cmpQ (a b : ℚ) : Ordering :=
  if a < b then Ordering.lt else if b < a then Ordering.gt else Ordering.eq

/-- Three-way comparison of integers. -/
def cmpZ (a b : ℤ) : Ordering :=
  if a < b then Ordering.lt else if b < a then Ordering.gt else Ordering.eq

/-- Three-way lexicographic comparison of character lists by code point. -/
def cmpCharList : List Char → List Char → Ordering
  | [], [] => Ordering.eq
  | [], _ :: _ => Ordering.lt
  | _ :: _, [] => Ordering.gt
  | a :: as, b :: bs =>
    if a.toNat < b.toNat then Ordering.lt
    else if b.toNat < a.toNat then Ordering.gt
    else cmpCharList as bs

/-- Three-way lexicographic comparison of strings by code point, as Python
compares the condition strings. -/
def cmpStr (a b : String) : Ordering :=
  cmpCharList a.data b.data

/-- Lift a comparison to optional values with missing values sorting last
(pandas `na_position='last'`). -/
def cmpOpt {α : Type} (c : α → α → Ordering) : Option α → Option α → Ordering
  | none, none => Ordering.eq
  | none, some _ => Ordering.gt
  | some _, none => Ordering.lt
  | some a, some b => c a b

/-- Comparison of sort keys `(condition, alpha, seed)`. -/
def cmpSortKey (c₁ : Option String) (a₁ : Option ℚ) (s₁ : Option ℤ)
    (c₂ : Option String) (a₂ : Option ℚ) (s₂ : Option ℤ) : Ordering :=
  ((cmpOpt cmpStr c₁ c₂).then ((cmpOpt cmpQ a₁ a₂).then (cmpOpt cmpZ s₁ s₂)))

/-- "Not greater" on the `(condition, alpha, seed)` key of graph-level rows. -/
def GRow.sortLE (r₁ r₂ : GRow) : Bool :=
  match cmpSortKey r₁.condition r₁.alpha r₁.seed r₂.condition r₂.alpha r₂.seed with
  | Ordering.gt => false
  | _ => true

/-- "Not greater" on the `(condition, alpha, seed)` key of pair-level rows. -/
def PRow.sortLE (r₁ r₂ : PRow) : Bool :=
  match cmpSortKey r₁.condition r₁.alpha r₁.seed r₂.condition r₂.alpha r₂.seed with
  | Ordering.gt => false
  | _ => true

/-- Insert an element before the first list element it is `le` to; combined
with `sortBy` below this is a stable sort for a total preorder. -/
def insertLE {ρ : Type} (le : ρ → ρ → Bool) (x : ρ) : List ρ → List ρ
  | [] => [x]
  | y :: ys => if le x y then x :: y :: ys else y :: insertLE le x ys

/-- Stable insertion sort; on the same total preorder it produces the same
row order as pandas' stable lexicographic `sort_values`. -/
def sortBy {ρ : Type} (le : ρ → ρ → Bool) : List ρ → List ρ
  | [] => []
  | x :: xs => insertLE le x (sortBy le xs)

/-- Outcome of one graph-level aggregator run. -/
inductive MacroResult where
  | noFiles
  | written (table : List GRow)

/-- The graph-level aggregator end to end: empty discovery returns an empty
DataFrame early and writes nothing; when artifacts were discovered but no row
was emitted, `pd.DataFrame([])` has no columns and
`drop_duplicates(subset=param_keys)` raises KeyError (an uncaught exception:
no file is written and the batch aborts); otherwise the rows are deduplicated
on the nine-parameter key keeping the last occurrence, sorted by
`(condition, alpha, seed)` ascending (missing last), re-indexed densely and
written. -/
noncomputable def macroAggregate (docs : List Doc) : Except AggError MacroResult :=
  if docs.isEmpty then Except.ok MacroResult.noFiles
  else
    match macroCollect docs with
    | Except.error e => Except.error e
    | Except.ok rows =>
      if rows.isEmpty then Except.error AggError.emptyDedupError
      else Except.ok (MacroResult.written (sortBy GRow.sortLE (dedupLast GRow.key rows)))

/-- The `__main__` batch of the graph-level aggregator: run the aggregator for
each configured model in order; an uncaught exception aborts the remaining
models. -/
noncomputable def macroBatch : List (List Doc) → Except AggError (List MacroResult)
  | [] => Except.ok []
  | ds :: rest =>
    match macroAggregate ds with
    | Except.error e => Except.error e
    | Except.ok r =>
      match macroBatch rest with
      | Except.error e => Except.error e
      | Except.ok rs => Except.ok (r :: rs)

/-! ## Spec-side statistical definitions (from the specification's words) -/

/-- Sample mean per the spec: defined for a non-empty population, NaN for a
zero-element population. -/
noncomputable def sampleMean (l : List ℝ) : Option ℝ :=
  if l = [] then none else some (l.sum / (l.length : ℝ))

/-- Sample standard deviation per the spec (divisor `n−1`): NaN for a
population with fewer than two elements. -/
noncomputable def sampleStd (l : List ℝ) : Option ℝ :=
  if l.length < 2 then none
  else
    some (Real.sqrt
      ((l.map fun x => (x - l.sum / (l.length : ℝ)) ^ 2).sum /
        ((l.length : ℝ) - 1)))

/-- The spec's retained finite mse population of an artifact. -/
def specRetainedMse (ms : List Measurement) : List ℚ :=
  ms.filterMap fun m =>
    match m.mse with
    | MF.fin q => some q
    | _ => none

/-- The spec's rmse population: square roots of the retained mse values that
are non-negative (negative retained values stay in the mse population only). -/
noncomputable def specRmsePop (ms : List Measurement) : List ℝ :=
  ((specRetainedMse ms).filter fun q => 0 ≤ q).map (fun q => Real.sqrt (q : ℝ))

/-- The spec's retained finite mse population as real numbers. -/
noncomputable def specRetainedMseR (ms : List Measurement) : List ℝ :=
  (specRetainedMse ms).map (Rat.cast : ℚ → ℝ)

/-- The spec's usable measurements for pair-level weighting: those where the
mse and the sample count are present and the sample count is positive, as
`(mse, samples)` pairs. -/
def specUsed (ms : List Measurement) : List (ℚ × ℤ) :=
  ms.filterMap fun m =>
    match m.mse, m.test_samples with
    | MF.fin q, some s => if 0 < s then some (q, s) else none
    | _, _ => none

/-- The spec's accumulated weight `Σ samples_i` over usable measurements. -/
def specWeight (ms : List Measurement) : ℤ :=
  ((specUsed ms).map Prod.snd).sum

/-- The spec's accumulated product `Σ (mse_i × samples_i)` over usable
measurements. -/
def specProduct (ms : List Measurement) : ℚ :=
  ((specUsed ms).map fun p => p.1 * (p.2 : ℚ)).sum

/-- The spec's `overall_mse`: `Σ(mse_i × samples_i) / Σ(samples_i)` over the
usable measurements, NaN when the accumulated weight is zero. -/
def specOverallMse (ms : List Measurement) : Option ℚ :=
  if 0 < specWeight ms then some (specProduct ms / (specWeight ms : ℚ))
  else none

/-- The finite rational behind an mse value (junk on absent/non-finite; only
used under hypotheses excluding those). -/
def mfVal : MF → ℚ
  | MF.fin q => q
  | _ => 0

/-- Whether an mse value is non-finite. -/
def mfIsNonfinite : MF → Bool
  | MF.nonfinite => true
  | _ => false

/-- The spec's unweighted arithmetic mean of a list of mse values: NaN for an
empty list, NaN if a non-finite value enters the float sum, the arithmetic
mean otherwise. -/
def unweightedMean (l : List MF) : Option ℚ :=
  if l = [] then none
  else if l.any mfIsNonfinite then none
  else some ((l.map mfVal).sum / (l.length : ℚ))

/-! ## Alpha broadcaster: `_prepare_alpha_broadcast` in
`plot_all_summaries_plt.py` and the inline broadcast in
`plot_all_summaries_sns.py`.

The broadcaster only reads and writes the `condition` and `alpha` columns of
the combined summary table; all remaining columns (model, error metric, the
other parameters) are carried unchanged and are modelled by the opaque
`payload` field. -/

/-- A row of the combined multi-model summary table as seen by the
broadcaster. -/
structure BRow where
  condition : Option String
  alpha : Option ℚ
  payload : ℚ
  deriving DecidableEq, Repr

/-- `df.assign(alpha=a)` on one row. -/
def BRow.withAlpha (r : BRow) (a : Option ℚ) : BRow :=
  { r with alpha := a }

/-- `df[df['condition'].isin(['topk','bottomk'])]` — the alpha-dependent rows. -/
def depOf (df : List BRow) : List BRow :=
  df.filter fun r => r.condition == some "topk" || r.condition == some "bottomk"

/-- `df[df['condition'].isin(['random','all'])]` — the alpha-independent rows. -/
def indepOf (df : List BRow) : List BRow :=
  df.filter fun r => r.condition == some "random" || r.condition == some "all"

/-- `sorted(col.dropna().unique().tolist())`: the distinct values of a list in
ascending order. -/
def distinctSorted (l : List ℚ) : List ℚ :=
  sortBy (fun a b => decide (a ≤ b)) l.dedup

/-- The alpha values observed among alpha-dependent rows, distinct and
sorted. -/
def depAlphasOf (df : List BRow) : List ℚ :=
  distinctSorted ((depOf df).filterMap fun r => r.alpha)

/-- The alpha values used by `_prepare_alpha_broadcast`: those of the
alpha-dependent rows or, when there are none, all alpha values observed
anywhere in the table. -/
def pltAlphasOf (df : List BRow) : List ℚ :=
  if (depAlphasOf df).isEmpty then distinctSorted (df.filterMap fun r => r.alpha)
  else depAlphasOf df

/-- `_prepare_alpha_broadcast(df)`: when some alpha value was selected and an
alpha-independent row exists, the output is the alpha-dependent rows followed
by one copy of every alpha-independent row per selected alpha value (in alpha
order); when no alpha value exists anywhere, the whole input table is kept with
every row's alpha overwritten by the dummy value 0.0; otherwise the whole
input table is kept unchanged. -/
def prepareAlphaBroadcast (df : List BRow) : List BRow × List ℚ :=
  let dep := depOf df
  let indep := indepOf df
  let alphas := pltAlphasOf df
  if !alphas.isEmpty && !indep.isEmpty then
    (dep ++ alphas.flatMap (fun a => indep.map (fun r => r.withAlpha (some a))), alphas)
  else if alphas.isEmpty then
    (df.map (fun r => r.withAlpha (some 0)), [0])
  else (df, alphas)

/-- The inline broadcast of `plot_all_summaries_sns.py`: as above but the
selected alphas come only from the alpha-dependent rows (no fallback), and in
every other case the input table is returned unchanged. -/
def snsBroadcast (df : List BRow) : List BRow × List ℚ :=
  let dep := depOf df
  let indep := indepOf df
  let alphas := depAlphasOf df
  if !alphas.isEmpty && !indep.isEmpty then
    (dep ++ alphas.flatMap (fun a => indep.map (fun r => r.withAlpha (some a))), alphas)
  else (df, alphas)

/-! ## Summary-table loading in the comparison/reporting layer.

A loaded summary table is modelled by its row count and its three possible
error columns (each, when present, a list of per-row values with `none` = NaN).
The other loading steps (adding the model column, coercing alpha) do not
interact with the claims below and are omitted. -/

/-- `none` = NaN entry of an error column. -/
abbrev MFR := Option ℝ

/-- `np.sqrt` on a float column entry: NaN stays NaN, a negative value maps to
NaN. -/
noncomputable def sqrtNp (v : MFR) : MFR :=
  match v with
  | none => none
  | some x => if x < 0 then none else some (Real.sqrt x)

/-- One summary CSV as read by the comparison layer: its number of rows and
its `overall_mse`, `rmse_mean` and `mse_mean` columns when present. -/
structure STable where
  nrows : ℕ
  overallMse : Option (List MFR)
  rmseMean : Option (List MFR)
  mseMean : Option (List MFR)

/-- `plot_pair_summaries` loading: a table without an `overall_mse` column is
skipped with a warning; otherwise its `overall_rmse = sqrt(overall_mse)`
column is produced. -/
noncomputable def pltPairLoad (ts : List STable) : List (List MFR) :=
  ts.filterMap fun t => t.overallMse.map (fun col => col.map sqrtNp)

/-- The `mse_mean` fallback of `plot_graph_summaries`: usable when the column
is present with at least one non-NaN entry, producing `sqrt(mse_mean)`. -/
noncomputable def pltGraphMseFallback (t : STable) : Option (List MFR) :=
  match t.mseMean with
  | some col => if col.any (fun v => v.isSome) then some (col.map sqrtNp) else none
  | none => none

/-- Column choice of `plot_graph_summaries`: prefer `rmse_mean` when present
with at least one non-NaN entry, fall back on `sqrt(mse_mean)`, otherwise the
table is skipped with a warning. -/
noncomputable def pltGraphPick (t : STable) : Option (List MFR) :=
  match t.rmseMean with
  | some col =>
    if col.any (fun v => v.isSome) then some col else pltGraphMseFallback t
  | none => pltGraphMseFallback t

/-- `plot_graph_summaries` loading: the usable `overall_rmse` columns of the
tables, skipping unusable tables. -/
noncomputable def pltGraphLoad (ts : List STable) : List (List MFR) :=
  ts.filterMap pltGraphPick

/-- Error raised by the seaborn comparison script. -/
inductive LoadError where
  /-- `combined_df['overall_mse']` raised KeyError: no loaded table had the
  column. -/
  | keyError
  deriving DecidableEq, Repr

/-- The concatenated `overall_mse` column after `pd.concat`: rows of a table
lacking the column are filled with NaN. -/
def snsCombinedMse (ts : List STable) : List MFR :=
  ts.flatMap fun t =>
    match t.overallMse with
    | some col => col
    | none => List.replicate t.nrows none

/-- `plot_all_summaries` (seaborn) loading: nothing to do when no table was
loaded; when at least one table was loaded but none carries an `overall_mse`
column, `combined_df['overall_mse']` raises KeyError (fatal, nothing is
plotted); otherwise every loaded row — including rows of tables lacking the
column, filled with NaN — receives `overall_rmse = sqrt(overall_mse)`. -/
noncomputable def snsLoad (ts : List STable) : Except LoadError (List MFR) :=
  match ts with
  | [] => Except.ok []
  | _ =>
    if ts.all (fun t => t.overallMse.isNone) then Except.error LoadError.keyError
    else Except.ok ((snsCombinedMse ts).map sqrtNp)

/-! ## Helper lemmas -/

/-- The code's `_mean_std_sample` computes exactly the spec's sample mean and
sample standard deviation (divisor `n−1`). -/
theorem meanStdSample_eq (l : List ℝ) :
    meanStdSample l = (sampleMean l, sampleStd l) := by
  unfold meanStdSample sampleMean sampleStd
  rcases l with _ | ⟨x, l'⟩
  · simp
  · have h0 : (x :: l').length ≠ 0 := by simp
    rw [if_neg h0, if_neg (by simp : ¬(x :: l' = []))]
    by_cases h2 : 2 ≤ (x :: l').length
    · rw [if_pos h2, if_neg (by omega)]
    · rw [if_neg h2, if_pos (by omega)]

/-- The code's retained-mse list is the spec's retained finite mse
population. -/
theorem finiteMseVals_eq_spec (ms : List Measurement) :
    finiteMseVals ms = specRetainedMse ms := rfl

/-- The code's rmse list is the spec's rmse population. -/
theorem rmseListR_eq_spec (ms : List Measurement) :
    rmseListR ms = specRmsePop ms := rfl

/-! ## Claim C1 -/

/-- Claim C1: for every valid artifact processed by the graph-level
aggregator, one row is emitted whose `mse_mean`/`mse_std` and
`rmse_mean`/`rmse_std` are the sample mean and sample standard deviation
(divisor n−1) of the retained finite mse population and of the rmse
population (square roots of the retained non-negative mse values); an empty
population yields NaN mean and std, a one-element population a defined mean
with NaN std, and `n_targets_used` is the count of retained finite mse
values. -/
theorem graph_level_statistics_correct (meta : Metadata) (ms : List Measurement)
    (h : meta.isEmptyDict = false) :
    macroStep (Doc.parsed meta (ResultsField.rlist ms)) =
      Except.ok (some (macroRowOf meta ms))
    ∧ (macroRowOf meta ms).mse_mean = sampleMean (specRetainedMseR ms)
    ∧ (macroRowOf meta ms).mse_std = sampleStd (specRetainedMseR ms)
    ∧ (macroRowOf meta ms).rmse_mean = sampleMean (specRmsePop ms)
    ∧ (macroRowOf meta ms).rmse_std = sampleStd (specRmsePop ms)
    ∧ (specRetainedMse ms = [] →
        (macroRowOf meta ms).mse_mean = none ∧ (macroRowOf meta ms).mse_std = none)
    ∧ ((specRetainedMse ms).length = 1 →
        (∃ x, (macroRowOf meta ms).mse_mean = some x) ∧
          (macroRowOf meta ms).mse_std = none)
    ∧ (specRmsePop ms = [] →
        (macroRowOf meta ms).rmse_mean = none ∧ (macroRowOf meta ms).rmse_std = none)
    ∧ ((specRmsePop ms).length = 1 →
        (∃ x, (macroRowOf meta ms).rmse_mean = some x) ∧
          (macroRowOf meta ms).rmse_std = none)
    ∧ (macroRowOf meta ms).n_targets_used = (specRetainedMse ms).length := by
  have hmse : mseListR ms = specRetainedMseR ms := rfl
  have hmean : (macroRowOf meta ms).mse_mean = sampleMean (specRetainedMseR ms) := by
    show (meanStdSample (mseListR ms)).1 = _
    rw [meanStdSample_eq, hmse]
  have hstd : (macroRowOf meta ms).mse_std = sampleStd (specRetainedMseR ms) := by
    show (meanStdSample (mseListR ms)).2 = _
    rw [meanStdSample_eq, hmse]
  have hrmean : (macroRowOf meta ms).rmse_mean = sampleMean (specRmsePop ms) := by
    show (meanStdSample (rmseListR ms)).1 = _
    rw [meanStdSample_eq, rmseListR_eq_spec]
  have hrstd : (macroRowOf meta ms).rmse_std = sampleStd (specRmsePop ms) := by
    show (meanStdSample (rmseListR ms)).2 = _
    rw [meanStdSample_eq, rmseListR_eq_spec]
  refine ⟨by simp [macroStep, h], hmean, hstd, hrmean, hrstd, ?_, ?_, ?_, ?_, rfl⟩
  · intro hnil
    have hnilR : specRetainedMseR ms = [] := by
      rw [specRetainedMseR, hnil, List.map_nil]
    rw [hmean, hstd, hnilR]
    simp [sampleMean, sampleStd]
  · intro hone
    have hlen : (specRetainedMseR ms).length = 1 := by
      rw [specRetainedMseR, List.length_map, hone]
    constructor
    · rw [hmean]
      have hne : specRetainedMseR ms ≠ [] := by
        intro hc
        rw [hc] at hlen
        simp at hlen
      exact ⟨_, by rw [sampleMean, if_neg hne]⟩
    · rw [hstd, sampleStd, if_pos (by rw [hlen]; omega)]
  · intro hnil
    rw [hrmean, hrstd, hnil]
    simp [sampleMean, sampleStd]
  · intro hone
    constructor
    · rw [hrmean]
      have hne : specRmsePop ms ≠ [] := by
        intro hc
        rw [hc] at hone
        simp at hone
      exact ⟨_, by rw [sampleMean, if_neg hne]⟩
    · rw [hrstd, sampleStd, if_pos (by rw [hone]; omega)]

/-- Witness for C1: the spec's concrete scenario, an artifact with
measurements of mse 4 and 16 under condition `topk`. -/
theorem graph_level_statistics_witness :
    (macroRowOf ⟨some "topk", some 50, some 1, none, none, none, none, none, none, false⟩
        [⟨MF.fin 4, some 10⟩, ⟨MF.fin 16, some 10⟩]).mse_mean =
      sampleMean (specRetainedMseR [⟨MF.fin 4, some 10⟩, ⟨MF.fin 16, some 10⟩])
    ∧ (macroRowOf ⟨some "topk", some 50, some 1, none, none, none, none, none, none, false⟩
        [⟨MF.fin 4, some 10⟩, ⟨MF.fin 16, some 10⟩]).n_targets_used =
      (specRetainedMse [⟨MF.fin 4, some 10⟩, ⟨MF.fin 16, some 10⟩]).length :=
  ⟨(graph_level_statistics_correct
      ⟨some "topk", some 50, some 1, none, none, none, none, none, none, false⟩
      [⟨MF.fin 4, some 10⟩, ⟨MF.fin 16, some 10⟩] (by decide)).2.1,
   (graph_level_statistics_correct
      ⟨some "topk", some 50, some 1, none, none, none, none, none, none, false⟩
      [⟨MF.fin 4, some 10⟩, ⟨MF.fin 16, some 10⟩] (by decide)).2.2.2.2.2.2.2.2.2⟩

/-! ## Claim C3 -/

/-- Claim C3: in every summary row emitted by either aggregator, a row whose
condition is `all` or `random` carries the missing/NaN alpha sentinel,
whatever alpha the raw metadata declared. -/
theorem alpha_normalized_alpha_independent (meta : Metadata)
    (ms₁ ms₂ : List Measurement)
    (h : meta.condition = some "all" ∨ meta.condition = some "random") :
    (macroRowOf meta ms₁).alpha = none ∧ (microRowOf meta ms₂).alpha = none := by
  constructor
  · show (if meta.condition = some "random" ∨ meta.condition = some "all" then
        none else meta.alpha) = none
    rcases h with h | h <;> simp [h]
  · show (if meta.condition = some "random" ∨ meta.condition = some "all" then
        none else meta.alpha) = none
    rcases h with h | h <;> simp [h]

/-- Witness for C3: an artifact declaring condition `all` with alpha 7 yields
rows with a missing alpha in both aggregators. -/
theorem alpha_normalized_alpha_independent_witness :
    (macroRowOf ⟨some "all", some 7, some 2, none, none, none, none, none, none, false⟩
        []).alpha = none
    ∧ (microRowOf ⟨some "all", some 7, some 2, none, none, none, none, none, none, false⟩
        [⟨MF.fin 1, some 1⟩]).alpha = none :=
  alpha_normalized_alpha_independent
    ⟨some "all", some 7, some 2, none, none, none, none, none, none, false⟩
    [] [⟨MF.fin 1, some 1⟩] (Or.inl rfl)

/-! ## Claim C2 -/

/-- On an artifact whose present mse values are all finite, the accumulation
loop of the pair-level aggregator computes the spec's accumulated product and
weight. -/
theorem microAccum_spec (ms : List Measurement)
    (h : ∀ m ∈ ms, m.mse ≠ MF.nonfinite) :
    microAccum ms = (some (specProduct ms), specWeight ms) := by
  have key : ∀ (l : List Measurement), (∀ m ∈ l, m.mse ≠ MF.nonfinite) →
      ∀ p t, l.foldl microAccumStep (some p, t) =
        (some (p + specProduct l), t + specWeight l) := by
    intro l
    induction l with
    | nil =>
      intro _ p t
      simp [specProduct, specWeight, specUsed]
    | cons m l ih =>
      intro hl p t
      have hm : m.mse ≠ MF.nonfinite := hl m (by simp)
      have hl' : ∀ x ∈ l, x.mse ≠ MF.nonfinite := fun x hx => hl x (by simp [hx])
      rw [List.foldl_cons]
      rcases hmse : m.mse with _ | _ | q
      · have hstep : microAccumStep (some p, t) m = (some p, t) := by
          simp [microAccumStep, hmse]
        have hused : specUsed (m :: l) = specUsed l := by
          simp [specUsed, List.filterMap_cons, hmse]
        rw [hstep, ih hl' p t]
        simp [specProduct, specWeight, hused]
      · exact absurd hmse hm
      · rcases hts : m.test_samples with _ | s
        · have hstep : microAccumStep (some p, t) m = (some p, t) := by
            simp [microAccumStep, hmse, hts]
          have hused : specUsed (m :: l) = specUsed l := by
            simp [specUsed, List.filterMap_cons, hmse, hts]
          rw [hstep, ih hl' p t]
          simp [specProduct, specWeight, hused]
        · by_cases hs : 0 < s
          · have hstep : microAccumStep (some p, t) m =
                (some (p + q * (s : ℚ)), t + s) := by
              simp [microAccumStep, hmse, hts, hs]
            have hused : specUsed (m :: l) = (q, s) :: specUsed l := by
              simp [specUsed, List.filterMap_cons, hmse, hts, hs]
            rw [hstep, ih hl' (p + q * (s : ℚ)) (t + s)]
            simp only [Prod.mk.injEq, Option.some_inj, specProduct, specWeight,
              hused, List.map_cons, List.sum_cons]
            constructor
            · ring
            · ring
          · have hstep : microAccumStep (some p, t) m = (some p, t) := by
              simp [microAccumStep, hmse, hts, hs]
            have hused : specUsed (m :: l) = specUsed l := by
              simp [specUsed, List.filterMap_cons, hmse, hts, hs]
            rw [hstep, ih hl' p t]
            simp [specProduct, specWeight, hused]
  have := key ms h 0 0
  rw [microAccum, this]
  simp

/-- Claim C2: for every artifact seen by the pair-level aggregator with
non-empty metadata and a non-empty measurement list (and, in this idealized
real-number model, finite present mse values), one row is emitted whose
`overall_mse` is `Σ(mse_i × samples_i) / Σ(samples_i)` over exactly the
measurements with a present mse and a present positive `test_samples`, and is
NaN when the accumulated weight is zero; artifacts with empty metadata or an
empty measurement list emit no row at all. -/
theorem pair_level_overall_mse_correct (meta : Metadata) (ms : List Measurement)
    (h1 : meta.isEmptyDict = false) (h2 : ms ≠ [])
    (h3 : ∀ m ∈ ms, m.mse ≠ MF.nonfinite) :
    (microStep (Doc.parsed meta (ResultsField.rlist ms)) =
        Except.ok (some (microRowOf meta ms))
      ∧ (microRowOf meta ms).overall_mse = specOverallMse ms)
    ∧ ∀ meta' ms', (meta'.isEmptyDict = true ∨ ms' = []) →
        microStep (Doc.parsed meta' (ResultsField.rlist ms')) = Except.ok none := by
  refine ⟨⟨?_, ?_⟩, ?_⟩
  · rcases ms with _ | ⟨m, ms'⟩
    · exact absurd rfl h2
    · simp [microStep, h1]
  · show computeOverallMse ms = specOverallMse ms
    rw [computeOverallMse, microAccum_spec ms h3, specOverallMse]
    by_cases hw : 0 < specWeight ms
    · rw [if_pos hw, if_pos hw]
      rfl
    · rw [if_neg hw, if_neg hw]
  · intro meta' ms' hskip
    rcases hskip with hm | hn
    · simp [microStep, hm]
    · subst hn
      by_cases hm : meta'.isEmptyDict <;> simp [microStep, hm]

/-- Witness for C2: the spec's concrete scenario `[{mse:4,test_samples:10},
{mse:16,test_samples:10}]`, whose weighted overall mse is 10. -/
theorem pair_level_overall_mse_witness :
    (microRowOf ⟨some "topk", some 50, some 1, none, none, none, none, none, none, false⟩
        [⟨MF.fin 4, some 10⟩, ⟨MF.fin 16, some 10⟩]).overall_mse =
      specOverallMse [⟨MF.fin 4, some 10⟩, ⟨MF.fin 16, some 10⟩] :=
  (pair_level_overall_mse_correct
    ⟨some "topk", some 50, some 1, none, none, none, none, none, none, false⟩
    [⟨MF.fin 4, some 10⟩, ⟨MF.fin 16, some 10⟩]
    (by decide) (by decide) (by decide)).1.2

/-! ## Claim C8 -/

/-- Once the float accumulator is NaN it stays NaN, while uniformly present
positive sample counts keep accumulating. -/
theorem foldl_poisoned (s : ℤ) (hs : 0 < s) :
    ∀ (l : List Measurement),
      (∀ m ∈ l, m.test_samples = some s ∧ m.mse ≠ MF.absent) →
      ∀ t, l.foldl microAccumStep (none, t) = (none, t + l.length * s) := by
  intro l
  induction l with
  | nil => intro _ t; simp
  | cons m l ih =>
    intro hl t
    obtain ⟨hts, hmse⟩ := hl m (by simp)
    have hl' : ∀ x ∈ l, x.test_samples = some s ∧ x.mse ≠ MF.absent :=
      fun x hx => hl x (by simp [hx])
    rw [List.foldl_cons]
    rcases hq : m.mse with _ | _ | q
    · exact absurd hq hmse
    · have hstep : microAccumStep (none, t) m = (none, t + s) := by
        simp [microAccumStep, hq, hts, hs]
      rw [hstep, ih hl' (t + s)]
      simp only [List.length_cons, Prod.mk.injEq, true_and]
      push_cast
      ring
    · have hstep : microAccumStep (none, t) m = (none, t + s) := by
        simp [microAccumStep, hq, hts, hs]
      rw [hstep, ih hl' (t + s)]
      simp only [List.length_cons, Prod.mk.injEq, true_and]
      push_cast
      ring

/-- Accumulation over measurements whose sample counts are uniformly `s > 0`
and whose mse is present: the weight is `n·s` and the product is the plain sum
of the mse values times `s`, NaN-poisoned when some mse is non-finite. -/
theorem foldl_uniform (s : ℤ) (hs : 0 < s) :
    ∀ (l : List Measurement),
      (∀ m ∈ l, m.test_samples = some s ∧ m.mse ≠ MF.absent) →
      ∀ p t, l.foldl microAccumStep (some p, t) =
        (if l.any (fun x => mfIsNonfinite x.mse) then none
         else some (p + ((l.map fun x => mfVal x.mse).sum) * (s : ℚ)),
         t + l.length * s) := by
  intro l
  induction l with
  | nil => intro _ p t; simp
  | cons m l ih =>
    intro hl p t
    obtain ⟨hts, hmse⟩ := hl m (by simp)
    have hl' : ∀ x ∈ l, x.test_samples = some s ∧ x.mse ≠ MF.absent :=
      fun x hx => hl x (by simp [hx])
    rw [List.foldl_cons]
    rcases hq : m.mse with _ | _ | q
    · exact absurd hq hmse
    · have hstep : microAccumStep (some p, t) m = (none, t + s) := by
        simp [microAccumStep, hq, hts, hs]
      rw [hstep, foldl_poisoned s hs l hl' (t + s)]
      have hany : (m :: l).any (fun x => mfIsNonfinite x.mse) = true := by
        simp [hq, mfIsNonfinite]
      rw [hany]
      simp only [List.length_cons, Prod.mk.injEq, if_true, true_and]
      push_cast
      ring
    · have hstep : microAccumStep (some p, t) m = (some (p + q * (s : ℚ)), t + s) := by
        simp [microAccumStep, hq, hts, hs]
      rw [hstep, ih hl' (p + q * (s : ℚ)) (t + s)]
      have hany : (m :: l).any (fun x => mfIsNonfinite x.mse) =
          l.any (fun x => mfIsNonfinite x.mse) := by
        simp [hq, mfIsNonfinite]
      rw [hany]
      by_cases hl2 : l.any (fun x => mfIsNonfinite x.mse) = true
      · rw [if_pos hl2, if_pos hl2]
        simp only [List.length_cons, Prod.mk.injEq, true_and]
        push_cast
        ring
      · rw [if_neg hl2, if_neg hl2]
        simp only [List.length_cons, Prod.mk.injEq, Option.some_inj, List.map_cons,
          List.sum_cons, mfVal, hq]
        constructor
        · ring
        · push_cast
          ring

/-- Claim C8: when all measurements of an artifact carry the same positive
`test_samples` and a present mse, the pair-level weighted `overall_mse` equals
the unweighted arithmetic mean of the mse values. -/
theorem pair_weighted_reduces_to_unweighted (ms : List Measurement) (s : ℤ)
    (hs : 0 < s)
    (h : ∀ m ∈ ms, m.test_samples = some s ∧ m.mse ≠ MF.absent) :
    computeOverallMse ms = unweightedMean (ms.map fun m => m.mse) := by
  rcases ms with _ | ⟨m, l⟩
  · decide
  · have hacc : microAccum (m :: l) =
        (if (m :: l).any (fun x => mfIsNonfinite x.mse) then none
         else some (0 + (((m :: l).map fun x => mfVal x.mse).sum) * (s : ℚ)),
         0 + ((m :: l).length : ℤ) * s) := foldl_uniform s hs (m :: l) h 0 0
    have hnpos : (0 : ℤ) < ((m :: l).length : ℤ) := by
      exact_mod_cast Nat.succ_pos l.length
    have hw : (0 : ℤ) < 0 + ((m :: l).length : ℤ) * s := by
      have := mul_pos hnpos hs
      omega
    rw [computeOverallMse, hacc]
    rw [if_pos hw]
    by_cases hany : (m :: l).any (fun x => mfIsNonfinite x.mse) = true
    · rw [if_pos hany]
      have hany' : ((m :: l).map fun x => x.mse).any mfIsNonfinite = true := by
        simp only [List.any_eq_true, List.mem_map] at hany ⊢
        obtain ⟨x, hx, hpx⟩ := hany
        exact ⟨x.mse, ⟨x, hx, rfl⟩, hpx⟩
      rw [unweightedMean, if_neg (by simp), if_pos hany']
      rfl
    · rw [if_neg hany]
      have hany' : ¬((m :: l).map fun x => x.mse).any mfIsNonfinite = true := by
        simp only [List.any_eq_true, List.mem_map] at hany ⊢
        rintro ⟨y, ⟨x, hx, rfl⟩, hpx⟩
        exact hany ⟨x, hx, hpx⟩
      rw [unweightedMean, if_neg (by simp), if_neg hany']
      have hsum : (((m :: l).map fun x => x.mse).map mfVal).sum =
          ((m :: l).map fun x => mfVal x.mse).sum := by
        rw [List.map_map]
        rfl
      rw [Option.map_some', hsum, List.length_map]
      congr 1
      have hs' : ((s : ℚ)) ≠ 0 := by
        exact_mod_cast hs.ne'
      have hn' : (((m :: l).length : ℚ)) ≠ 0 := by
        exact_mod_cast hnpos.ne'
      push_cast
      field_simp
      ring

/-- Witness for C8: two measurements with mse 4 and 16 and uniform
`test_samples = 10`; the weighted overall mse equals the plain mean. -/
theorem pair_weighted_reduces_to_unweighted_witness :
    computeOverallMse [⟨MF.fin 4, some 10⟩, ⟨MF.fin 16, some 10⟩] =
      unweightedMean (([⟨MF.fin 4, some 10⟩, ⟨MF.fin 16, some 10⟩] :
        List Measurement).map fun m => m.mse) :=
  pair_weighted_reduces_to_unweighted
    [⟨MF.fin 4, some 10⟩, ⟨MF.fin 16, some 10⟩] 10 (by decide)
    (by decide)

/-! ## Claim C4 -/

/-- Amended claim C4: the graph-level final table is produced by deduplicating
the emitted rows on the nine-parameter key keeping the last occurrence and
then stable-sorting by `(condition, alpha, seed)` ascending with missing
values last; the pair-level final table is produced by the deduplication
alone, keeping the surviving rows in processing order with no sort. -/
theorem final_tables_dedup_then_order :
    (∀ docs rows, microCollect docs = Except.ok rows → rows ≠ [] →
      microAggregate docs = Except.ok (MicroResult.written (dedupLast PRow.key rows)))
    ∧ (∀ docs rows, macroCollect docs = Except.ok rows → rows ≠ [] →
      macroAggregate docs =
        Except.ok (MacroResult.written (sortBy GRow.sortLE (dedupLast GRow.key rows)))) := by
  constructor
  · intro docs rows hcol hne
    rcases docs with _ | ⟨d, ds⟩
    · rw [show microCollect [] = Except.ok ([] : List PRow) from rfl] at hcol
      cases hcol
      exact absurd rfl hne
    · rw [microAggregate]
      rw [hcol]
      rcases rows with _ | ⟨r, rs⟩
      · exact absurd rfl hne
      · rfl
  · intro docs rows hcol hne
    rcases docs with _ | ⟨d, ds⟩
    · rw [show macroCollect [] = Except.ok ([] : List GRow) from rfl] at hcol
      cases hcol
      exact absurd rfl hne
    · rw [macroAggregate]
      rw [hcol]
      rcases rows with _ | ⟨r, rs⟩
      · exact absurd rfl hne
      · rfl

/-- Witness for amended C4: a single valid artifact under each aggregator. -/
theorem final_tables_dedup_then_order_witness :
    microAggregate
        [Doc.parsed ⟨some "all", none, some 2, none, none, none, none, none, none, false⟩
          (ResultsField.rlist [⟨MF.fin 9, some 3⟩])] =
      Except.ok (MicroResult.written (dedupLast PRow.key
        [microRowOf ⟨some "all", none, some 2, none, none, none, none, none, none, false⟩
          [⟨MF.fin 9, some 3⟩]]))
    ∧ macroAggregate
        [Doc.parsed ⟨some "all", none, some 2, none, none, none, none, none, none, false⟩
          (ResultsField.rlist [⟨MF.fin 9, some 3⟩])] =
      Except.ok (MacroResult.written (sortBy GRow.sortLE (dedupLast GRow.key
        [macroRowOf ⟨some "all", none, some 2, none, none, none, none, none, none, false⟩
          [⟨MF.fin 9, some 3⟩]]))) :=
  ⟨final_tables_dedup_then_order.1
      [Doc.parsed ⟨some "all", none, some 2, none, none, none, none, none, none, false⟩
        (ResultsField.rlist [⟨MF.fin 9, some 3⟩])]
      [microRowOf ⟨some "all", none, some 2, none, none, none, none, none, none, false⟩
        [⟨MF.fin 9, some 3⟩]] rfl (by decide),
   final_tables_dedup_then_order.2
      [Doc.parsed ⟨some "all", none, some 2, none, none, none, none, none, none, false⟩
        (ResultsField.rlist [⟨MF.fin 9, some 3⟩])]
      [macroRowOf ⟨some "all", none, some 2, none, none, none, none, none, none, false⟩
        [⟨MF.fin 9, some 3⟩]] rfl (by simp)⟩

/-- Counterexample to C4 as stated: the pair-level aggregator writes the rows
of a `topk` artifact followed by an `all` artifact in processing order, which
differs from the `(condition, alpha, seed)`-sorted order the claim
prescribes. -/
theorem pair_table_not_sorted :
    microAggregate
        [Doc.parsed ⟨some "topk", some 1, some 1, none, none, none, none, none, none, false⟩
          (ResultsField.rlist [⟨MF.fin 1, some 1⟩]),
         Doc.parsed ⟨some "all", none, some 1, none, none, none, none, none, none, false⟩
          (ResultsField.rlist [⟨MF.fin 1, some 1⟩])] =
      Except.ok (MicroResult.written
        [⟨some "topk", some 1, some 1, none, none, none, none, none, none, some 1⟩,
         ⟨some "all", none, some 1, none, none, none, none, none, none, some 1⟩])
    ∧ sortBy PRow.sortLE (dedupLast PRow.key
        [⟨some "topk", some 1, some 1, none, none, none, none, none, none, some 1⟩,
         ⟨some "all", none, some 1, none, none, none, none, none, none, some 1⟩]) =
      [⟨some "all", none, some 1, none, none, none, none, none, none, some 1⟩,
       ⟨some "topk", some 1, some 1, none, none, none, none, none, none, some 1⟩]
    ∧ ([⟨some "topk", some 1, some 1, none, none, none, none, none, none, some 1⟩,
        ⟨some "all", none, some 1, none, none, none, none, none, none, some 1⟩] :
          List PRow) ≠
      [⟨some "all", none, some 1, none, none, none, none, none, none, some 1⟩,
       ⟨some "topk", some 1, some 1, none, none, none, none, none, none, some 1⟩] := by
  refine ⟨?_, ?_, ?_⟩
  · norm_num [microAggregate, microCollect, collectRows, microStep, microRowOf,
      computeOverallMse, microAccum, microAccumStep, dedupLast, PRow.key,
      Metadata.isEmptyDict, Option.isNone]
    simp [show ("all" : String) ≠ "topk" from by decide,
      show ("topk" : String) ≠ "random" from by decide,
      show ("topk" : String) ≠ "all" from by decide]
  · decide
  · intro hco
    have h1 : (⟨some "topk", some 1, some 1, none, none, none, none, none, none,
        some 1⟩ : PRow) =
        ⟨some "all", none, some 1, none, none, none, none, none, none, some 1⟩ := by
      injection hco
    have h2 : (some "topk" : Option String) = some "all" := congrArg PRow.condition h1
    simp at h2

/-! ## Claim C5 -/

/-- A document on which the per-artifact step emits no row contributes nothing
and processing of the remaining documents continues unchanged. -/
theorem collectRows_skip {ρ : Type} (step : Doc → Except AggError (Option ρ))
    (pre post : List Doc) (d : Doc) (h : step d = Except.ok none) :
    collectRows step (pre ++ d :: post) = collectRows step (pre ++ post) := by
  induction pre with
  | nil =>
    rw [List.nil_append, List.nil_append, collectRows, h]
  | cons p ps ih =>
    rw [List.cons_append, List.cons_append, collectRows, collectRows]
    cases hp : step p with
    | error e => rfl
    | ok o =>
      cases o with
      | none => exact ih
      | some r => rw [ih]

/-- Amended claim C5: an artifact with absent/empty metadata is skipped with a
warning by both aggregators, and the graph-level aggregator also skips any
non-list measurement field while the pair-level aggregator skips only a falsy
(empty) measurement field; but a document that cannot be parsed raises an
uncaught exception that aborts the batch in both aggregators, as does a
truthy non-list measurement field in the pair-level aggregator. -/
theorem artifact_failures_skip_or_abort :
    (∀ pre post meta res, meta.isEmptyDict = true →
      macroCollect (pre ++ Doc.parsed meta res :: post) = macroCollect (pre ++ post)
      ∧ microCollect (pre ++ Doc.parsed meta res :: post) = microCollect (pre ++ post))
    ∧ (∀ pre post meta b,
      macroCollect (pre ++ Doc.parsed meta (ResultsField.rother b) :: post) =
        macroCollect (pre ++ post))
    ∧ (∀ pre post meta,
      microCollect (pre ++ Doc.parsed meta (ResultsField.rlist []) :: post) =
        microCollect (pre ++ post)
      ∧ microCollect (pre ++ Doc.parsed meta (ResultsField.rother false) :: post) =
        microCollect (pre ++ post))
    ∧ (∀ ds, macroCollect (Doc.malformed :: ds) = Except.error AggError.parseError
      ∧ microCollect (Doc.malformed :: ds) = Except.error AggError.parseError)
    ∧ (∀ meta ds, meta.isEmptyDict = false →
      microCollect (Doc.parsed meta (ResultsField.rother true) :: ds) =
        Except.error AggError.runtimeError) := by
  refine ⟨?_, ?_, ?_, ?_, ?_⟩
  · intro pre post meta res hmeta
    constructor
    · exact collectRows_skip macroStep pre post _ (by simp [macroStep, hmeta])
    · exact collectRows_skip microStep pre post _ (by simp [microStep, hmeta])
  · intro pre post meta b
    refine collectRows_skip macroStep pre post _ ?_
    by_cases hmeta : meta.isEmptyDict <;> simp [macroStep, hmeta]
  · intro pre post meta
    constructor
    · refine collectRows_skip microStep pre post _ ?_
      by_cases hmeta : meta.isEmptyDict <;> simp [microStep, hmeta]
    · refine collectRows_skip microStep pre post _ ?_
      by_cases hmeta : meta.isEmptyDict <;> simp [microStep, hmeta]
  · intro ds
    constructor
    · rw [macroCollect, collectRows]
      rfl
    · rw [microCollect, collectRows]
      rfl
  · intro meta ds hmeta
    rw [microCollect, collectRows]
    simp [microStep, hmeta]

/-- Witness for amended C5: a concrete artifact with empty metadata is skipped
by both aggregators between two empty batches. -/
theorem artifact_failures_skip_or_abort_witness :
    macroCollect
        [Doc.parsed ⟨none, none, none, none, none, none, none, none, none, false⟩
          (ResultsField.rlist [])] =
      macroCollect []
    ∧ microCollect
        [Doc.parsed ⟨none, none, none, none, none, none, none, none, none, false⟩
          (ResultsField.rlist [])] =
      microCollect [] :=
  artifact_failures_skip_or_abort.1 [] []
    ⟨none, none, none, none, none, none, none, none, none, false⟩
    (ResultsField.rlist []) (by decide)

/-- Counterexample to C5 as stated: a document on which parsing raises aborts
both aggregators with an uncaught exception instead of being skipped with a
warning. -/
theorem malformed_doc_aborts :
    macroCollect [Doc.malformed] = Except.error AggError.parseError
    ∧ microCollect [Doc.malformed] = Except.error AggError.parseError :=
  ⟨rfl, rfl⟩

/-! ## Claim C7 -/

/-- If every discovered document parses but has empty metadata, a per-artifact
step that skips empty metadata yields no row at all. -/
theorem collectRows_all_empty_meta {ρ : Type}
    (step : Doc → Except AggError (Option ρ))
    (hstep : ∀ meta res, Metadata.isEmptyDict meta = true →
      step (Doc.parsed meta res) = Except.ok none) :
    ∀ docs, (∀ d ∈ docs, ∃ meta res,
        d = Doc.parsed meta res ∧ meta.isEmptyDict = true) →
      collectRows step docs = Except.ok [] := by
  intro docs
  induction docs with
  | nil => intro _; rfl
  | cons d ds ih =>
    intro hall
    obtain ⟨meta, res, rfl, hmeta⟩ := hall d (by simp)
    rw [collectRows, hstep meta res hmeta]
    exact ih (fun x hx => hall x (by simp [hx]))

/-- Amended claim C7: when artifacts were discovered but none yielded a valid
row, the pair-level aggregator reports the condition, writes no output file
and lets the batch continue; the graph-level aggregator writes no output file
either, but raises an uncaught KeyError while deduplicating the empty
column-less table, aborting the rest of the batch. -/
theorem empty_aggregation_reporting (docs : List Doc) (hne : docs ≠ [])
    (hall : ∀ d ∈ docs, ∃ meta res,
      d = Doc.parsed meta res ∧ meta.isEmptyDict = true) :
    microAggregate docs = Except.ok MicroResult.noData
    ∧ macroAggregate docs = Except.error AggError.emptyDedupError
    ∧ (∀ rest, microBatch (docs :: rest) =
        (microBatch rest).map (fun rs => MicroResult.noData :: rs))
    ∧ (∀ rest, macroBatch (docs :: rest) = Except.error AggError.emptyDedupError) := by
  have hmicro : microCollect docs = Except.ok [] :=
    collectRows_all_empty_meta microStep
      (fun meta res hmeta => by simp [microStep, hmeta]) docs hall
  have hmacro : macroCollect docs = Except.ok [] :=
    collectRows_all_empty_meta macroStep
      (fun meta res hmeta => by simp [macroStep, hmeta]) docs hall
  have hmicroAgg : microAggregate docs = Except.ok MicroResult.noData := by
    rcases docs with _ | ⟨d, ds⟩
    · exact absurd rfl hne
    · rw [microAggregate, hmicro]
      rfl
  have hmacroAgg : macroAggregate docs = Except.error AggError.emptyDedupError := by
    rcases docs with _ | ⟨d, ds⟩
    · exact absurd rfl hne
    · rw [macroAggregate, hmacro]
      rfl
  refine ⟨hmicroAgg, hmacroAgg, ?_, ?_⟩
  · intro rest
    rw [microBatch, hmicroAgg]
    cases hb : microBatch rest <;> simp [Except.map]
  · intro rest
    rw [macroBatch, hmacroAgg]

/-- Witness for amended C7: one discovered artifact with empty metadata. -/
theorem empty_aggregation_reporting_witness :
    microAggregate
        [Doc.parsed ⟨none, none, none, none, none, none, none, none, none, false⟩
          (ResultsField.rlist [⟨MF.fin 1, some 1⟩])] =
      Except.ok MicroResult.noData
    ∧ macroAggregate
        [Doc.parsed ⟨none, none, none, none, none, none, none, none, none, false⟩
          (ResultsField.rlist [⟨MF.fin 1, some 1⟩])] =
      Except.error AggError.emptyDedupError :=
  ⟨(empty_aggregation_reporting
      [Doc.parsed ⟨none, none, none, none, none, none, none, none, none, false⟩
        (ResultsField.rlist [⟨MF.fin 1, some 1⟩])]
      (by decide)
      (by
        intro d hd
        rw [List.mem_singleton] at hd
        subst hd
        exact ⟨_, _, rfl, rfl⟩)).1,
   (empty_aggregation_reporting
      [Doc.parsed ⟨none, none, none, none, none, none, none, none, none, false⟩
        (ResultsField.rlist [⟨MF.fin 1, some 1⟩])]
      (by decide)
      (by
        intro d hd
        rw [List.mem_singleton] at hd
        subst hd
        exact ⟨_, _, rfl, rfl⟩)).2.1⟩

/-- Counterexample to C7 as stated: a graph-level batch whose first model has
discovered-but-invalid artifacts aborts with an uncaught error before the
second model is processed, instead of reporting and continuing. -/
theorem graph_empty_aggregation_aborts :
    macroBatch
        [[Doc.parsed ⟨none, none, none, none, none, none, none, none, none, false⟩
            (ResultsField.rlist [])],
         [Doc.parsed ⟨some "all", none, some 1, none, none, none, none, none, none, false⟩
            (ResultsField.rlist [⟨MF.fin 1, some 1⟩])]] =
      Except.error AggError.emptyDedupError := by
  rw [macroBatch]
  rw [show macroAggregate
      [Doc.parsed ⟨none, none, none, none, none, none, none, none, none, false⟩
        (ResultsField.rlist [])] = Except.error AggError.emptyDedupError from rfl]

/-! ## Claims C6 and C10 -/

/-- Main branch of `_prepare_alpha_broadcast`: with a non-empty selected alpha
set and at least one alpha-independent row, the output is the alpha-dependent
rows followed by the broadcast copies, and the selected alphas are returned. -/
theorem prepareAlphaBroadcast_main (df : List BRow)
    (h1 : pltAlphasOf df ≠ []) (h2 : indepOf df ≠ []) :
    prepareAlphaBroadcast df =
      (depOf df ++ (pltAlphasOf df).flatMap
        (fun a => (indepOf df).map (fun r => r.withAlpha (some a))),
       pltAlphasOf df) := by
  have ha : (pltAlphasOf df).isEmpty = false := by
    cases h : pltAlphasOf df
    · exact absurd h h1
    · rfl
  have hi : (indepOf df).isEmpty = false := by
    cases h : indepOf df
    · exact absurd h h2
    · rfl
  simp only [prepareAlphaBroadcast, ha, hi, Bool.not_false, Bool.and_self, if_true]

/-- Main branch of the seaborn inline broadcast. -/
theorem snsBroadcast_main (df : List BRow)
    (h1 : depAlphasOf df ≠ []) (h2 : indepOf df ≠ []) :
    snsBroadcast df =
      (depOf df ++ (depAlphasOf df).flatMap
        (fun a => (indepOf df).map (fun r => r.withAlpha (some a))),
       depAlphasOf df) := by
  have ha : (depAlphasOf df).isEmpty = false := by
    cases h : depAlphasOf df
    · exact absurd h h1
    · rfl
  have hi : (indepOf df).isEmpty = false := by
    cases h : indepOf df
    · exact absurd h h2
    · rfl
  simp only [snsBroadcast, ha, hi, Bool.not_false, Bool.and_self, if_true]

/-- Flat-mapping a function with constant output length multiplies lengths. -/
theorem length_flatMap_const {α β : Type} (l : List α) (f : α → List β) (n : ℕ)
    (h : ∀ a ∈ l, (f a).length = n) : (l.flatMap f).length = l.length * n := by
  induction l with
  | nil => simp
  | cons a l ih =>
    rw [List.flatMap_cons, List.length_append, h a (by simp),
      ih (fun x hx => h x (by simp [hx])), List.length_cons]
    ring

/-- Amended claim C6: when the selected alpha set `A` (taken from the
alpha-dependent rows, falling back to all observed alphas) is non-empty and at
least one alpha-independent row exists, the broadcast output is exactly the
alpha-dependent rows unchanged plus one copy of each alpha-independent row per
value of `A` (`k × m` generated rows); the seaborn variant behaves identically
when the alpha-dependent rows carry alphas.  (When no alpha exists anywhere
the code instead keeps the whole table with every alpha overwritten to the
dummy 0.0, and when there is no alpha-independent row it keeps the whole table
unchanged — see the counterexample.) -/
theorem alpha_broadcast_main_branch (df : List BRow)
    (h1 : pltAlphasOf df ≠ []) (h2 : indepOf df ≠ []) :
    (prepareAlphaBroadcast df).1 =
      depOf df ++ (pltAlphasOf df).flatMap
        (fun a => (indepOf df).map (fun r => r.withAlpha (some a)))
    ∧ (prepareAlphaBroadcast df).1.length =
      (depOf df).length + (indepOf df).length * (pltAlphasOf df).length
    ∧ (prepareAlphaBroadcast df).2 = pltAlphasOf df
    ∧ (depAlphasOf df ≠ [] →
      (snsBroadcast df).1 =
        depOf df ++ (depAlphasOf df).flatMap
          (fun a => (indepOf df).map (fun r => r.withAlpha (some a)))) := by
  have hmain := prepareAlphaBroadcast_main df h1 h2
  refine ⟨by rw [hmain], ?_, by rw [hmain], ?_⟩
  · rw [hmain]
    simp only [List.length_append]
    rw [length_flatMap_const _ _ (indepOf df).length
      (fun a _ => List.length_map _ _)]
    ring
  · intro hdep
    rw [snsBroadcast_main df hdep h2]

/-- Witness for amended C6: one `topk` row with alpha 2 and one `all` row; the
broadcast output is the `topk` row plus the `all` row copied at alpha 2. -/
theorem alpha_broadcast_main_branch_witness :
    (prepareAlphaBroadcast
        [⟨some "topk", some 2, 1⟩, ⟨some "all", none, 2⟩]).1 =
      depOf [⟨some "topk", some 2, 1⟩, ⟨some "all", none, 2⟩] ++
        (pltAlphasOf [⟨some "topk", some 2, 1⟩, ⟨some "all", none, 2⟩]).flatMap
          (fun a => (indepOf [⟨some "topk", some 2, 1⟩, ⟨some "all", none, 2⟩]).map
            (fun r => r.withAlpha (some a)))
    ∧ (prepareAlphaBroadcast
        [⟨some "topk", some 2, 1⟩, ⟨some "all", none, 2⟩]).1.length =
      (depOf [⟨some "topk", some 2, 1⟩, ⟨some "all", none, 2⟩]).length +
        (indepOf [⟨some "topk", some 2, 1⟩, ⟨some "all", none, 2⟩]).length *
          (pltAlphasOf [⟨some "topk", some 2, 1⟩, ⟨some "all", none, 2⟩]).length :=
  ⟨(alpha_broadcast_main_branch
      [⟨some "topk", some 2, 1⟩, ⟨some "all", none, 2⟩]
      (by decide) (by decide)).1,
   (alpha_broadcast_main_branch
      [⟨some "topk", some 2, 1⟩, ⟨some "all", none, 2⟩]
      (by decide) (by decide)).2.1⟩

/-- Counterexample to C6 as stated: with a `topk` row carrying no alpha and an
`all` row, the synthetic fallback `A = [0]` applies, but the code keeps the
whole table with every alpha overwritten to 0 — the alpha-dependent row is
changed, instead of the claimed union of unchanged alpha-dependent rows and
broadcast copies. -/
theorem alpha_broadcast_dummy_counterexample :
    (prepareAlphaBroadcast [⟨some "topk", none, 1⟩, ⟨some "all", none, 2⟩]).1 =
      [⟨some "topk", some 0, 1⟩, ⟨some "all", some 0, 2⟩]
    ∧ (prepareAlphaBroadcast [⟨some "topk", none, 1⟩, ⟨some "all", none, 2⟩]).1 ≠
      depOf [⟨some "topk", none, 1⟩, ⟨some "all", none, 2⟩] ++
        ([0] : List ℚ).flatMap
          (fun a => (indepOf [⟨some "topk", none, 1⟩, ⟨some "all", none, 2⟩]).map
            (fun r => r.withAlpha (some a))) := by
  refine ⟨by decide, by decide⟩

/-- Membership in the broadcast output forces one of the four known
conditions. -/
theorem broadcast_member_condition (df : List BRow) (alphas : List ℚ) (r : BRow)
    (h : r ∈ depOf df ++ alphas.flatMap
      (fun a => (indepOf df).map (fun x => x.withAlpha (some a)))) :
    r.condition = some "topk" ∨ r.condition = some "bottomk" ∨
    r.condition = some "random" ∨ r.condition = some "all" := by
  rw [List.mem_append] at h
  rcases h with h | h
  · rw [depOf, List.mem_filter] at h
    have hc := h.2
    simp only [Bool.or_eq_true, beq_iff_eq] at hc
    tauto
  · rw [List.mem_flatMap] at h
    obtain ⟨a, _, hr⟩ := h
    rw [List.mem_map] at hr
    obtain ⟨x, hx, rfl⟩ := hr
    rw [indepOf, List.mem_filter] at hx
    have hc := hx.2
    simp only [Bool.or_eq_true, beq_iff_eq] at hc
    rcases hc with h | h
    · right; right; left; exact h
    · right; right; right; exact h

/-- Claim C10: when a non-empty alpha set is selected and an alpha-independent
row exists, any row whose condition is not one of `all`, `topk`, `bottomk`,
`random` (including a missing condition) is absent from the broadcast output
of both the matplotlib and the seaborn variant, even if present in the
input. -/
theorem nonstandard_conditions_dropped (df : List BRow) (r : BRow)
    (hr : r.condition ∉ ([some "all", some "topk", some "bottomk", some "random"] :
      List (Option String))) :
    (pltAlphasOf df ≠ [] → indepOf df ≠ [] → r ∉ (prepareAlphaBroadcast df).1)
    ∧ (depAlphasOf df ≠ [] → indepOf df ≠ [] → r ∉ (snsBroadcast df).1) := by
  simp only [List.mem_cons, List.not_mem_nil, or_false, not_or] at hr
  obtain ⟨hall, htop, hbot, hrand⟩ := hr
  constructor
  · intro h1 h2 hmem
    rw [prepareAlphaBroadcast_main df h1 h2] at hmem
    rcases broadcast_member_condition df (pltAlphasOf df) r hmem with
      h | h | h | h
    · exact htop h
    · exact hbot h
    · exact hrand h
    · exact hall h
  · intro h1 h2 hmem
    rw [snsBroadcast_main df h1 h2] at hmem
    rcases broadcast_member_condition df (depAlphasOf df) r hmem with
      h | h | h | h
    · exact htop h
    · exact hbot h
    · exact hrand h
    · exact hall h

/-- Witness for C10: a row with condition `other` is absent from both
broadcast outputs of a table that also has `topk` (alpha 2) and `all` rows. -/
theorem nonstandard_conditions_dropped_witness :
    (⟨some "other", none, 5⟩ : BRow) ∉
      (prepareAlphaBroadcast
        [⟨some "topk", some 2, 1⟩, ⟨some "all", none, 2⟩, ⟨some "other", none, 5⟩]).1
    ∧ (⟨some "other", none, 5⟩ : BRow) ∉
      (snsBroadcast
        [⟨some "topk", some 2, 1⟩, ⟨some "all", none, 2⟩, ⟨some "other", none, 5⟩]).1 :=
  ⟨(nonstandard_conditions_dropped
      [⟨some "topk", some 2, 1⟩, ⟨some "all", none, 2⟩, ⟨some "other", none, 5⟩]
      ⟨some "other", none, 5⟩ (by decide)).1 (by decide) (by decide),
   (nonstandard_conditions_dropped
      [⟨some "topk", some 2, 1⟩, ⟨some "all", none, 2⟩, ⟨some "other", none, 5⟩]
      ⟨some "other", none, 5⟩ (by decide)).2 (by decide) (by decide)⟩

/-! ## Claim C9 -/

/-- Amended claim C9: the matplotlib loaders skip a table lacking a usable
error column with a warning and keep processing the other tables, computing
`rmse = sqrt(mse)` wherever only an mse column is usable; the seaborn loader,
however, raises a fatal KeyError when none of the loaded tables has an
`overall_mse` column. -/
theorem loader_column_handling :
    (∀ pre post t, t.overallMse = none →
      pltPairLoad (pre ++ t :: post) = pltPairLoad (pre ++ post))
    ∧ (∀ pre post t, t.rmseMean = none → t.mseMean = none →
      pltGraphLoad (pre ++ t :: post) = pltGraphLoad (pre ++ post))
    ∧ (∀ t col, t.overallMse = some col → pltPairLoad [t] = [col.map sqrtNp])
    ∧ (∀ t col, t.rmseMean = none → t.mseMean = some col →
      col.any (fun v => v.isSome) = true → pltGraphLoad [t] = [col.map sqrtNp])
    ∧ (∀ ts, ts ≠ [] → (∀ t ∈ ts, t.overallMse = none) →
      snsLoad ts = Except.error LoadError.keyError) := by
  refine ⟨?_, ?_, ?_, ?_, ?_⟩
  · intro pre post t h
    rw [pltPairLoad, pltPairLoad, List.filterMap_append, List.filterMap_append,
      List.filterMap_cons_none (by rw [h]; rfl)]
  · intro pre post t h1 h2
    rw [pltGraphLoad, pltGraphLoad, List.filterMap_append, List.filterMap_append,
      List.filterMap_cons_none
        (by simp [pltGraphPick, pltGraphMseFallback, h1, h2])]
  · intro t col h
    simp [pltPairLoad, h]
  · intro t col h1 h2 h3
    simp [pltGraphLoad, pltGraphPick, pltGraphMseFallback, h1, h2, h3]
  · intro ts hne hall
    rcases ts with _ | ⟨t, ts'⟩
    · exact absurd rfl hne
    · have hcond : (t :: ts').all (fun x => x.overallMse.isNone) = true := by
        rw [List.all_eq_true]
        intro x hx
        rw [hall x hx]
        rfl
      simp only [snsLoad, hcond, if_true]

/-- Witness for amended C9: the pair loader squares-roots a present
`overall_mse` column, and the seaborn loader fails fatally on two tables that
both lack the column. -/
theorem loader_column_handling_witness :
    pltPairLoad [⟨1, some [some 4], none, none⟩] = [[some 4].map sqrtNp]
    ∧ snsLoad [⟨1, none, some [some 1], none⟩, ⟨2, none, none, none⟩] =
      Except.error LoadError.keyError :=
  ⟨loader_column_handling.2.2.1 ⟨1, some [some 4], none, none⟩ [some 4] rfl,
   loader_column_handling.2.2.2.2
      [⟨1, none, some [some 1], none⟩, ⟨2, none, none, none⟩]
      (List.cons_ne_nil _ _)
      (by
        intro t ht
        rcases List.mem_cons.mp ht with h | h
        · subst h; rfl
        · rcases List.mem_cons.mp h with h2 | h2
          · subst h2; rfl
          · exact absurd h2 (List.not_mem_nil _))⟩

/-- Counterexample to C9 as stated: a single loaded graph-level table (with an
`rmse_mean` column but no `overall_mse` column) makes the seaborn comparison
script raise a fatal KeyError instead of skipping the table with a warning. -/
theorem sns_missing_column_fatal :
    snsLoad [⟨1, none, some [some 1], none⟩] = Except.error LoadError.keyError := by
  simp only [snsLoad]
  rfl
